import Mathlib

/-!
Verification of the threat-intelligence cache and reconciliation subsystem
of unifi-log-insight: a shallow embedding, in Lean 4, of the backfill
reconciler (`receiver/backfill.py`) and of the blacklist seeder
(`receiver/blacklist.py`), together with proofs of the behavioural
properties stated for them.

SQL tables are embedded as Lists of records; `NULL`-able columns are
`Option` fields.  Each SQL `UPDATE ... FROM` statement acts row-wise on
the log table (the join key is the primary key of `ip_threats`, so at
most one threat row matches a given log row), so it is embedded as a
`List.map` of a per-row transformation, with `rowcount` the number of
rows that matched the `WHERE` clause.

Components that live outside the embedded sources (`AbuseIPDBEnricher`,
`is_public_ip`, the `db` bulk-upsert helper) are modelled from the
specification and marked as such in their doc comments.
-/

namespace UnifiBackfill

/-- A row of the `ip_threats` table (the ThreatStore / ReputationRecord).
`score` is the 0-100 confidence integer and is always present, per the
data model; the six detail columns were added by a later schema revision
and may be `NULL`.  `expired` embeds the TTL state driven by
`looked_up_at` (true once the row is older than the 30-day TTL, in
particular after `_reenrich_stale_threats` backdates the timestamp). -/
structure Threat where
  ip : String
  score : Int
  categories : Option (List String)
  usageType : Option String
  hostnames : Option String
  totalReports : Option Int
  lastReported : Option String
  isWhitelisted : Option Bool
  isTor : Option Bool
  expired : Bool
  deriving Repr, DecidableEq

/-- A row of the `logs` table, restricted to the columns the reconciler
reads or writes: the two IP columns, the type/action filter columns and
the enrichment columns. -/
structure LogRecord where
  srcIp : Option String
  dstIp : Option String
  logType : String
  ruleAction : String
  score : Option Int
  categories : Option (List String)
  usageType : Option String
  hostnames : Option String
  totalReports : Option Int
  lastReported : Option String
  isWhitelisted : Option Bool
  isTor : Option Bool
  deriving Repr, DecidableEq

/-- `SELECT ... FROM ip_threats WHERE ip = x`: first row matching the key
(the key is unique in the real table, so `find?` is the join). -/
def findThreat (ts : List Threat) (ip : String) : Option Threat :=
  ts.find? (fun t => t.ip == ip)

/-- Join through a nullable IP column: a `NULL` column matches nothing. -/
def matchThreat (ts : List Threat) (key : Option String) : Option Threat :=
  match key with
  | none => none
  | some ip => findThreat ts ip

/-- SQL `COALESCE(a, b)`. -/
def coalesce {α : Type} (a b : Option α) : Option α :=
  match a with
  | some x => some x
  | none => b

/-- The filter `log_type = 'firewall' AND rule_action = 'block'` present
in every query of the reconciler. -/
def isFwBlock (l : LogRecord) : Bool :=
  l.logType == "firewall" && l.ruleAction == "block"

/-- The `SET` clause of the two `UPDATE` statements of
`_patch_from_cache`: score and categories are copied outright, the six
detail columns through `COALESCE(logs.x, t.x)`. -/
def applyScorePatch (t : Threat) (l : LogRecord) : LogRecord :=
  { l with
    score := some t.score
    categories := t.categories
    usageType := coalesce l.usageType t.usageType
    hostnames := coalesce l.hostnames t.hostnames
    totalReports := coalesce l.totalReports t.totalReports
    lastReported := coalesce l.lastReported t.lastReported
    isWhitelisted := coalesce l.isWhitelisted t.isWhitelisted
    isTor := coalesce l.isTor t.isTor }

/-- One pass of `_patch_from_cache` on one log row, joined through `key`
(`srcIp` for pass 1, `dstIp` for pass 2).  Returns the updated row and
its contribution to `rowcount`. -/
def scorePassOne (ts : List Threat) (key : LogRecord → Option String)
    (l : LogRecord) : LogRecord × Nat :=
  if l.score.isNone && isFwBlock l then
    match matchThreat ts (key l) with
    | some t => (applyScorePatch t l, 1)
    | none => (l, 0)
  else (l, 0)

/-- `t.threat_categories IS NOT NULL AND array_length(t.threat_categories, 1) > 0`
(in Postgres, `array_length` of an empty array is `NULL`). -/
def catsNonEmpty : Option (List String) → Bool
  | some (_ :: _) => true
  | _ => false

/-- `logs.threat_categories IS NULL OR array_length(...) IS NULL OR array_length(...) = 0`. -/
def catsNullOrEmpty : Option (List String) → Bool
  | none => true
  | some [] => true
  | some (_ :: _) => false

/-- The `SET` clause of the two `UPDATE` statements of
`_patch_abuse_fields`: the six detail columns are copied outright from
the threat row (no `COALESCE`), and categories only through the guarded
`CASE` expression. -/
def applyAbusePatch (t : Threat) (l : LogRecord) : LogRecord :=
  { l with
    usageType := t.usageType
    hostnames := t.hostnames
    totalReports := t.totalReports
    lastReported := t.lastReported
    isWhitelisted := t.isWhitelisted
    isTor := t.isTor
    categories :=
      if catsNonEmpty t.categories && catsNullOrEmpty l.categories then
        t.categories
      else l.categories }

/-- One pass of `_patch_abuse_fields` on one log row, joined through
`key`; fires only on rows with a score, a `NULL` usage type, and a
matching threat row whose usage type is populated. -/
def abusePassOne (ts : List Threat) (key : LogRecord → Option String)
    (l : LogRecord) : LogRecord × Nat :=
  if l.score.isSome && l.usageType.isNone && isFwBlock l then
    match matchThreat ts (key l) with
    | some t =>
        if t.usageType.isSome then (applyAbusePatch t l, 1) else (l, 0)
    | none => (l, 0)
  else (l, 0)

/-- Run one `UPDATE` statement over the whole log table: the per-row
transformation mapped over every row, plus the statement's `rowcount`. -/
def runRowPass (f : LogRecord → LogRecord × Nat) (logs : List LogRecord) :
    List LogRecord × Nat :=
  (logs.map (fun l => (f l).1), (logs.map (fun l => (f l).2)).sum)

/-- `BackfillTask._patch_from_cache`: pass 1 joins on `src_ip`, pass 2 on
`dst_ip` over the updated table; returns the summed rowcount. -/
def patchFromCacheFull (ts : List Threat) (logs : List LogRecord) :
    List LogRecord × Nat :=
  let p1 := runRowPass (scorePassOne ts LogRecord.srcIp) logs
  let p2 := runRowPass (scorePassOne ts LogRecord.dstIp) p1.1
  (p2.1, p1.2 + p2.2)

/-- `BackfillTask._patch_abuse_fields`: same two-pass shape. -/
def patchAbuseFieldsFull (ts : List Threat) (logs : List LogRecord) :
    List LogRecord × Nat :=
  let p1 := runRowPass (abusePassOne ts LogRecord.srcIp) logs
  let p2 := runRowPass (abusePassOne ts LogRecord.dstIp) p1.1
  (p2.1, p1.2 + p2.2)

/-- Steps 1 and 2 of a cycle run back to back, with the combined number
of rows updated (the quantity the idempotence property is about). -/
def patchSteps (ts : List Threat) (logs : List LogRecord) :
    List LogRecord × Nat :=
  let a := patchFromCacheFull ts logs
  let b := patchAbuseFieldsFull ts a.1
  (b.1, a.2 + b.2)

/-- The categories part of the stale-entry `WHERE` clause of
`_reenrich_stale_threats`: `threat_categories` is `NULL`, the empty
array, or exactly the singleton blacklist array. -/
def blacklistOnlyCats (c : Option (List String)) : Bool :=
  c.isNone || c == some [] || c == some ["blacklist"]

/-- The full stale-entry `WHERE` clause. -/
def isStale (t : Threat) : Bool :=
  t.usageType.isNone && blacklistOnlyCats t.categories && decide (0 < t.score)

/-- Insertion into a list kept sorted by descending score (`ORDER BY
threat_score DESC`). -/
def insertByScore (t : Threat) : List Threat → List Threat
  | [] => [t]
  | u :: us =>
      if u.score ≤ t.score then t :: u :: us else u :: insertByScore t us

/-- Sort by descending score. -/
def sortByScoreDesc : List Threat → List Threat
  | [] => []
  | t :: ts => insertByScore t (sortByScoreDesc ts)

/-- The stale-entry `SELECT` of `_reenrich_stale_threats`, before the
projection to IP strings: filter, order by score descending, `LIMIT`. -/
def findStaleRecords (ts : List Threat) (limit : Nat) : List Threat :=
  (sortByScoreDesc (ts.filter isStale)).take limit

/-- The stale-entry `SELECT` as the code consumes it: the `host(ip)`
strings of the selected rows. -/
def findStale (ts : List Threat) (limit : Nat) : List String :=
  (findStaleRecords ts limit).map Threat.ip

/-- Split a character list on the dot separator. -/
def splitDots : List Char → List (List Char)
  | [] => [[]]
  | c :: cs =>
      let r := splitDots cs
      if c == '.' then [] :: r
      else
        match r with
        | g :: gs => (c :: g) :: gs
        | [] => [[c]]

/-- Value of one decimal digit. -/
def digitVal (c : Char) : Option Nat :=
  if '0' ≤ c && c ≤ '9' then some (c.toNat - '0'.toNat) else none

/-- One digit group of a dotted-quad address: non-empty, decimal, value
at most 255. -/
def parseOctet (cs : List Char) : Option Nat :=
  match cs.mapM digitVal with
  | some [] => none
  | some ds =>
      let n := ds.foldl (fun acc d => acc * 10 + d) 0
      if n ≤ 255 then some n else none
  | none => none

/-- Parse an IPv4 dotted-quad string. -/
def parseIPv4 (s : String) : Option (Nat × Nat × Nat × Nat) :=
  match (splitDots s.data).map parseOctet with
  | [some a, some b, some c, some d] => some (a, b, c, d)
  | _ => none

/-- Modelled from the spec: `is_public_ip` from the `enrichment` module
(not among the embedded sources) — "Restrict to publicly-routable
addresses (private/loopback/link-local ranges excluded, since the
external provider only scores public IPs)".  Private RFC1918 ranges,
loopback 127/8 and link-local 169.254/16 are excluded; anything that is
not a well-formed IPv4 address is not treated as public. -/
def isPublicIp (s : String) : Bool :=
  match parseIPv4 s with
  | none => false
  | some (a, b, _, _) =>
      !(a == 10 || (a == 172 && 16 ≤ b && b ≤ 31) || (a == 192 && b == 168)
        || a == 127 || (a == 169 && b == 254))

/-- The contribution of one log row to one arm of the orphan `UNION`:
its `key` column, provided the row has a `NULL` score, firewall/block
type, a non-`NULL` key column and no matching `ip_threats` row
(`LEFT JOIN ... WHERE t.ip IS NULL`). -/
def orphanCandidate (ts : List Threat) (key : LogRecord → Option String)
    (l : LogRecord) : Option String :=
  match key l with
  | some ip =>
      if l.score.isNone && isFwBlock l && (findThreat ts ip).isNone then
        some ip
      else none
  | none => none

/-- One arm of the orphan `UNION`, over the whole log table. -/
def orphanFromKey (ts : List Threat) (key : LogRecord → Option String)
    (logs : List LogRecord) : List String :=
  logs.filterMap (orphanCandidate ts key)

/-- `BackfillTask._find_orphans`: the `UNION` of the `src_ip` and
`dst_ip` arms, made `DISTINCT`, then filtered in Python through
`is_public_ip`. -/
def findOrphans (ts : List Threat) (logs : List LogRecord) : List String :=
  ((orphanFromKey ts LogRecord.srcIp logs ++
      orphanFromKey ts LogRecord.dstIp logs).dedup).filter isPublicIp

/-- `STALE_REENRICH_BATCH` from `backfill.py`. -/
def STALE_REENRICH_BATCH : Nat := 25

/-- Modelled from the spec: the payload of a successful external per-IP
reputation check — "success returns score + categories + detail
fields". -/
structure ApiDetails where
  score : Int
  categories : List String
  usageType : Option String
  hostnames : Option String
  totalReports : Option Int
  lastReported : Option String
  isWhitelisted : Option Bool
  isTor : Option Bool
  deriving Repr, DecidableEq

/-- Modelled from the spec: the three outcomes of one external per-IP
call — success, HTTP 429 quota exhaustion, or a transient
timeout/network failure. -/
inductive ApiOutcome where
  | success (d : ApiDetails)
  | rateLimited
  | failure
  deriving Repr, DecidableEq

/-- Modelled from the spec: the state owned by `AbuseIPDBEnricher`
(the EnrichmentClient, not among the embedded sources): the shared
`remaining_budget` counter, the in-process mirror cache (as the list of
IPs it holds), and the persistent ThreatStore it reads and writes.
`calls` instruments the number of external API calls actually issued. -/
structure EnrichState where
  budget : Nat
  mirror : List String
  store : List Threat
  calls : Nat
  deriving Repr

/-- A non-expired persistent record for `ip` exists in the store. -/
def storeFresh (ts : List Threat) (ip : String) : Bool :=
  (ts.find? (fun t => t.ip == ip && !t.expired)).isSome

/-- Modelled from the spec: `ThreatStore.upsert` as performed by a
successful lookup — "creates or overwrites; merges rather than clobbers
previously-populated detail fields when new detail is partial"; the
refreshed row is no longer expired. -/
def upsertThreat (ts : List Threat) (ip : String) (d : ApiDetails) :
    List Threat :=
  match findThreat ts ip with
  | some old =>
      ts.map (fun t =>
        if t.ip == ip then
          { ip := t.ip, score := d.score, categories := some d.categories
            usageType := coalesce d.usageType old.usageType
            hostnames := coalesce d.hostnames old.hostnames
            totalReports := coalesce d.totalReports old.totalReports
            lastReported := coalesce d.lastReported old.lastReported
            isWhitelisted := coalesce d.isWhitelisted old.isWhitelisted
            isTor := coalesce d.isTor old.isTor
            expired := false }
        else t)
  | none =>
      ts ++ [{ ip := ip, score := d.score, categories := some d.categories
               usageType := d.usageType, hostnames := d.hostnames
               totalReports := d.totalReports, lastReported := d.lastReported
               isWhitelisted := d.isWhitelisted, isTor := d.isTor
               expired := false }]

/-- The detail payload held by a cached row, as a lookup returns it on a
cache hit (the returned dict always carries `threat_score`). -/
def threatDetails (t : Threat) : ApiDetails :=
  { score := t.score, categories := t.categories.getD []
    usageType := t.usageType, hostnames := t.hostnames
    totalReports := t.totalReports, lastReported := t.lastReported
    isWhitelisted := t.isWhitelisted, isTor := t.isTor }

/-- Modelled from the spec: `EnrichmentClient.lookup` — a non-expired
record in the mirror or the store is returned without spending budget;
with zero budget no call is attempted; otherwise one external call is
issued and the budget decremented by exactly one regardless of outcome
(HTTP 429 additionally zeroes the budget for the rest of the window);
a successful result is persisted to the store and the mirror.  The
external provider is abstracted as the oracle `api`. -/
def lookup (api : String → ApiOutcome) (en : EnrichState) (ip : String) :
    Option ApiDetails × EnrichState :=
  if en.mirror.contains ip || storeFresh en.store ip then
    ((findThreat en.store ip).map threatDetails, en)
  else if en.budget = 0 then
    (none, en)
  else
    match api ip with
    | .success d =>
        (some d,
         { en with budget := en.budget - 1, calls := en.calls + 1
                   store := upsertThreat en.store ip d
                   mirror := ip :: en.mirror })
    | .rateLimited => (none, { en with budget := 0, calls := en.calls + 1 })
    | .failure =>
        (none, { en with budget := en.budget - 1, calls := en.calls + 1 })

/-- The `UPDATE ip_threats SET looked_up_at = NOW() - INTERVAL '30 days'`
of `_reenrich_stale_threats`, in the explicit-TTL embedding: the listed
rows become expired. -/
def forceExpire (ts : List Threat) (ips : List String) : List Threat :=
  ts.map (fun t => if ips.contains t.ip then { t with expired := true } else t)

/-- Python truthiness of `result.get('abuse_usage_type')`: present and
not the empty string. -/
def usageTruthy : Option String → Bool
  | some s => s != ""
  | none => false

/-- Python truthiness of `result and result.get('abuse_usage_type')`
for an optional lookup result. -/
def resultUsageTruthy : Option ApiDetails → Bool
  | some d => usageTruthy d.usageType
  | none => false

/-- The per-IP loop of `_reenrich_stale_threats`: look each IP up in
order, counting the results whose `abuse_usage_type` came back
populated. -/
def lookupBatchReenrich (api : String → ApiOutcome) (en : EnrichState) :
    List String → EnrichState × Nat
  | [] => (en, 0)
  | ip :: rest =>
      let r := lookup api en ip
      let acc := lookupBatchReenrich api r.2 rest
      (acc.1, (if resultUsageTruthy r.1 then 1 else 0) + acc.2)

/-- `BackfillTask._reenrich_stale_threats`: with zero budget return at
once; otherwise select up to `min(STALE_REENRICH_BATCH, budget)` stale
rows, force-expire them in the store, evict them from the mirror, and
look each up again. -/
def reenrichStale (api : String → ApiOutcome) (en : EnrichState) :
    EnrichState × Nat :=
  if en.budget = 0 then (en, 0)
  else
    let batchSize := min STALE_REENRICH_BATCH en.budget
    let staleIps := findStale en.store batchSize
    if staleIps.isEmpty then (en, 0)
    else
      let en1 :=
        { en with store := forceExpire en.store staleIps
                  mirror := en.mirror.filter (fun ip => !staleIps.contains ip) }
      lookupBatchReenrich api en1 staleIps

/-- The per-IP loop of step 5 of `_run_once`: look each orphan up,
counting looked-up (`result` truthy, with its `threat_score` key) and
failed ones. -/
def lookupBatchOrphans (api : String → ApiOutcome) (en : EnrichState) :
    List String → EnrichState × Nat × Nat
  | [] => (en, 0, 0)
  | ip :: rest =>
      let r := lookup api en ip
      let acc := lookupBatchOrphans api r.2 rest
      if r.1.isSome then (acc.1, acc.2.1 + 1, acc.2.2)
      else (acc.1, acc.2.1, acc.2.2 + 1)

/-- The state a reconciliation cycle acts on: the log table plus the
enricher (which owns the `ip_threats` store, the mirror and the
budget). -/
structure CycleState where
  logs : List LogRecord
  enrich : EnrichState
  deriving Repr

/-- The single log line `_run_once` emits: the early pending-orphans
message, the full completion summary, or the nothing-to-do notice. -/
inductive CycleReport where
  | pendingOrphans (patchedNull patchedAbuse reenriched orphanCount : Nat)
  | complete (patchedNull patchedAbuse reenriched lookedUp failed skipped
      patchedFinal : Nat)
  | nothingToDo
  deriving Repr, DecidableEq

/-- The log table after steps 1 and 2 of a cycle (both patch steps read
the store as it is at cycle start). -/
def stepTwoLogs (st : CycleState) : List LogRecord :=
  (patchAbuseFieldsFull st.enrich.store
    (patchFromCacheFull st.enrich.store st.logs).1).1

/-- `BackfillTask._run_once`: one reconciliation cycle.  Steps 1-2 patch
the log table from the store; step 3 re-enriches stale store rows; step
4 finds orphans; step 5 reads the remaining budget, ends the cycle early
when there are orphans but no budget, and otherwise looks up at most
`budget` orphans; step 6 re-runs the patch steps when new data arrived;
step 7 picks the summary message. -/
def runOnce (api : String → ApiOutcome) (st : CycleState) :
    CycleState × CycleReport :=
  let p1 := patchFromCacheFull st.enrich.store st.logs
  let p2 := patchAbuseFieldsFull st.enrich.store p1.1
  let patchedNull := p1.2
  let patchedAbuse := p2.2
  let re := reenrichStale api st.enrich
  let en1 := re.1
  let reenriched := re.2
  let orphans := findOrphans en1.store p2.1
  let budget := en1.budget
  if !orphans.isEmpty && budget == 0 then
    ({ logs := p2.1, enrich := en1 },
     .pendingOrphans patchedNull patchedAbuse reenriched orphans.length)
  else
    let toLookup := if 0 < budget then orphans.take budget else []
    let skipped := orphans.length - toLookup.length
    let lo := lookupBatchOrphans api en1 toLookup
    let en2 := lo.1
    let lookedUp := lo.2.1
    let failed := lo.2.2
    let fin :=
      if 0 < lookedUp || 0 < reenriched then
        let f1 := patchFromCacheFull en2.store p2.1
        let f2 := patchAbuseFieldsFull en2.store f1.1
        (f2.1, f1.2 + f2.2)
      else (p2.1, 0)
    let patchedFinal := fin.2
    let totalPatched := patchedNull + patchedAbuse + patchedFinal
    ({ logs := fin.1, enrich := en2 },
     if 0 < totalPatched || 0 < lookedUp || 0 < failed || 0 < skipped
        || 0 < reenriched then
       .complete patchedNull patchedAbuse reenriched lookedUp failed skipped
         patchedFinal
     else .nothingToDo)

/-- One item of the blacklist feed payload as `fetch_and_store` reads
it: `item.get('ipAddress')` and `item.get('abuseConfidenceScore', 100)`.
A `none` field embeds an absent key. -/
structure BlacklistItem where
  ipAddress : Option String
  abuseConfidenceScore : Option Int
  deriving Repr, DecidableEq

/-- Python truthiness of the fetched `ipAddress`: present and not the
empty string. -/
def hasIpAddress (item : BlacklistItem) : Bool :=
  item.ipAddress.getD "" != ""

/-- One iteration of the entry-building loop of
`BlacklistFetcher.fetch_and_store` (lines 59-63): an item with a truthy
`ipAddress` becomes an `(ip, score, categories)` tuple with the
blacklist category, the score defaulting to 100 when the key is absent;
other items are skipped. -/
def blacklistEntry (item : BlacklistItem) :
    Option (String × Int × List String) :=
  match item.ipAddress with
  | some ip =>
      if ip != "" then
        some (ip, item.abuseConfidenceScore.getD 100, ["blacklist"])
      else none
  | none => none

/-- The entry-building loop over the whole payload. -/
def buildEntries (data : List BlacklistItem) :
    List (String × Int × List String) :=
  data.filterMap blacklistEntry

/-- Modelled from the spec: `ThreatStore.bulkUpsert` via
`db.bulk_upsert_threats` (the `db` module is not among the embedded
sources) — "atomic per-entry, returns number of rows affected (inserted
or updated)".  A seeded row keeps any previously-populated detail
fields. -/
def bulkUpsertThreats (store : List Threat)
    (entries : List (String × Int × List String)) : List Threat × Nat :=
  entries.foldl
    (fun acc e =>
      match findThreat acc.1 e.1 with
      | some _ =>
          (acc.1.map (fun t =>
             if t.ip == e.1 then
               { t with score := e.2.1, categories := some e.2.2 }
             else t),
           acc.2 + 1)
      | none =>
          (acc.1 ++ [{ ip := e.1, score := e.2.1, categories := some e.2.2
                       usageType := none, hostnames := none
                       totalReports := none, lastReported := none
                       isWhitelisted := none, isTor := none
                       expired := false }],
           acc.2 + 1))
    (store, 0)

/-- The four ways the HTTP fetch of `fetch_and_store` can come back:
a parsed payload, HTTP 429, a raised `requests` error (including
`raise_for_status` on non-2xx), or a timeout. -/
inductive FetchOutcome where
  | ok (payload : List BlacklistItem)
  | rateLimited
  | httpError
  | timeout
  deriving Repr, DecidableEq

/-- `BlacklistFetcher.fetch_and_store`: returns the upserted count and
the resulting store.  Every failure path (429 before any write, the
exception handlers for timeout and request errors, the empty-payload
guard, a disabled fetcher) returns 0 and leaves the store untouched;
the function is total — no outcome escapes as an exception. -/
def fetch_and_store (enabled : Bool) (outcome : FetchOutcome)
    (store : List Threat) : Nat × List Threat :=
  if !enabled then (0, store)
  else
    match outcome with
    | .rateLimited => (0, store)
    | .timeout => (0, store)
    | .httpError => (0, store)
    | .ok payload =>
        if payload.isEmpty then (0, store)
        else
          let entries := buildEntries payload
          let r := bulkUpsertThreats store entries
          (r.2, r.1)

/-! ### Row-level helper forms of the patch steps -/

/-- The effect of `_patch_from_cache` on one log row: pass 1 (src) then
pass 2 (dst). -/
def scoreRow (ts : List Threat) (l : LogRecord) : LogRecord :=
  (scorePassOne ts LogRecord.dstIp (scorePassOne ts LogRecord.srcIp l).1).1

/-- The effect of `_patch_abuse_fields` on one log row. -/
def abuseRow (ts : List Threat) (l : LogRecord) : LogRecord :=
  (abusePassOne ts LogRecord.dstIp (abusePassOne ts LogRecord.srcIp l).1).1

/-- The effect of steps 1 and 2 together on one log row. -/
def patchRow (ts : List Threat) (l : LogRecord) : LogRecord :=
  abuseRow ts (scoreRow ts l)

theorem applyScorePatch_srcIp (t : Threat) (l : LogRecord) :
    (applyScorePatch t l).srcIp = l.srcIp := rfl

theorem applyScorePatch_dstIp (t : Threat) (l : LogRecord) :
    (applyScorePatch t l).dstIp = l.dstIp := rfl

theorem applyScorePatch_logType (t : Threat) (l : LogRecord) :
    (applyScorePatch t l).logType = l.logType := rfl

theorem applyScorePatch_ruleAction (t : Threat) (l : LogRecord) :
    (applyScorePatch t l).ruleAction = l.ruleAction := rfl

theorem applyScorePatch_score (t : Threat) (l : LogRecord) :
    (applyScorePatch t l).score = some t.score := rfl

theorem applyAbusePatch_srcIp (t : Threat) (l : LogRecord) :
    (applyAbusePatch t l).srcIp = l.srcIp := rfl

theorem applyAbusePatch_dstIp (t : Threat) (l : LogRecord) :
    (applyAbusePatch t l).dstIp = l.dstIp := rfl

theorem applyAbusePatch_logType (t : Threat) (l : LogRecord) :
    (applyAbusePatch t l).logType = l.logType := rfl

theorem applyAbusePatch_ruleAction (t : Threat) (l : LogRecord) :
    (applyAbusePatch t l).ruleAction = l.ruleAction := rfl

theorem applyAbusePatch_score (t : Threat) (l : LogRecord) :
    (applyAbusePatch t l).score = l.score := rfl

theorem applyAbusePatch_usageType (t : Threat) (l : LogRecord) :
    (applyAbusePatch t l).usageType = t.usageType := rfl

/-! ### Fire and skip lemmas for the per-row passes -/

theorem scorePassOne_fires {T : List Threat} {k : LogRecord → Option String}
    {l : LogRecord} {t : Threat} (h1 : l.score = none)
    (h2 : isFwBlock l = true) (hm : matchThreat T (k l) = some t) :
    scorePassOne T k l = (applyScorePatch t l, 1) := by
  simp [scorePassOne, h1, h2, hm]

theorem scorePassOne_skip_some {T : List Threat} {k : LogRecord → Option String}
    {l : LogRecord} (h : l.score.isSome) : scorePassOne T k l = (l, 0) := by
  have : l.score.isNone = false := by
    cases hs : l.score <;> simp_all
  simp [scorePassOne, this]

theorem scorePassOne_skip_fw {T : List Threat} {k : LogRecord → Option String}
    {l : LogRecord} (h : isFwBlock l = false) : scorePassOne T k l = (l, 0) := by
  simp [scorePassOne, h]

theorem scorePassOne_skip_match {T : List Threat} {k : LogRecord → Option String}
    {l : LogRecord} (hm : matchThreat T (k l) = none) :
    scorePassOne T k l = (l, 0) := by
  unfold scorePassOne
  split
  · rw [hm]
  · rfl

theorem abusePassOne_fires {T : List Threat} {k : LogRecord → Option String}
    {l : LogRecord} {t : Threat} (h1 : l.score.isSome)
    (h2 : l.usageType = none) (h3 : isFwBlock l = true)
    (hm : matchThreat T (k l) = some t) (ht : t.usageType.isSome) :
    abusePassOne T k l = (applyAbusePatch t l, 1) := by
  simp [abusePassOne, h1, h2, h3, hm, ht]

theorem abusePassOne_skip_none {T : List Threat} {k : LogRecord → Option String}
    {l : LogRecord} (h : l.score = none) : abusePassOne T k l = (l, 0) := by
  simp [abusePassOne, h]

theorem abusePassOne_skip_usage {T : List Threat} {k : LogRecord → Option String}
    {l : LogRecord} (h : l.usageType.isSome) : abusePassOne T k l = (l, 0) := by
  have : l.usageType.isNone = false := by
    cases hs : l.usageType <;> simp_all
  simp [abusePassOne, this]

theorem abusePassOne_skip_fw {T : List Threat} {k : LogRecord → Option String}
    {l : LogRecord} (h : isFwBlock l = false) : abusePassOne T k l = (l, 0) := by
  simp [abusePassOne, h]

theorem abusePassOne_skip_match {T : List Threat} {k : LogRecord → Option String}
    {l : LogRecord} (hm : matchThreat T (k l) = none) :
    abusePassOne T k l = (l, 0) := by
  unfold abusePassOne
  split
  · rw [hm]
  · rfl

theorem abusePassOne_skip_stale {T : List Threat} {k : LogRecord → Option String}
    {l : LogRecord} {t : Threat} (hm : matchThreat T (k l) = some t)
    (ht : t.usageType = none) : abusePassOne T k l = (l, 0) := by
  unfold abusePassOne
  split
  · rw [hm]
    simp [ht]
  · rfl

/-- Complete case analysis of one score pass on one row. -/
theorem scorePassOne_eq (ts : List Threat) (k : LogRecord → Option String)
    (l : LogRecord) :
    scorePassOne ts k l = (l, 0) ∨
      ∃ t, matchThreat ts (k l) = some t ∧ l.score = none ∧
        isFwBlock l = true ∧ scorePassOne ts k l = (applyScorePatch t l, 1) := by
  cases hs : l.score with
  | some v => exact Or.inl (scorePassOne_skip_some (by simp [hs]))
  | none =>
    cases hf : isFwBlock l with
    | false => exact Or.inl (scorePassOne_skip_fw hf)
    | true =>
      cases hm : matchThreat ts (k l) with
      | none => exact Or.inl (scorePassOne_skip_match hm)
      | some t => exact Or.inr ⟨t, rfl, rfl, rfl, scorePassOne_fires hs hf hm⟩

/-- Complete case analysis of one abuse pass on one row. -/
theorem abusePassOne_eq (ts : List Threat) (k : LogRecord → Option String)
    (l : LogRecord) :
    abusePassOne ts k l = (l, 0) ∨
      ∃ t, matchThreat ts (k l) = some t ∧ l.score.isSome = true ∧
        l.usageType = none ∧ isFwBlock l = true ∧ t.usageType.isSome = true ∧
        abusePassOne ts k l = (applyAbusePatch t l, 1) := by
  cases hs : l.score with
  | none => exact Or.inl (abusePassOne_skip_none hs)
  | some v =>
    cases hu : l.usageType with
    | some u => exact Or.inl (abusePassOne_skip_usage (by simp [hu]))
    | none =>
      cases hf : isFwBlock l with
      | false => exact Or.inl (abusePassOne_skip_fw hf)
      | true =>
        cases hm : matchThreat ts (k l) with
        | none => exact Or.inl (abusePassOne_skip_match hm)
        | some t =>
          cases ht : t.usageType with
          | none => exact Or.inl (abusePassOne_skip_stale hm ht)
          | some u =>
            exact Or.inr ⟨t, rfl, by simp [hs], rfl, rfl, by simp [ht],
              abusePassOne_fires (by simp [hs]) hu hf hm (by simp [ht])⟩

/-! ### Frame facts: the passes never touch join keys or filter columns -/

theorem scorePassOne_keeps (ts : List Threat) (k : LogRecord → Option String)
    (l : LogRecord) :
    (scorePassOne ts k l).1.srcIp = l.srcIp ∧
    (scorePassOne ts k l).1.dstIp = l.dstIp ∧
    (scorePassOne ts k l).1.logType = l.logType ∧
    (scorePassOne ts k l).1.ruleAction = l.ruleAction := by
  rcases scorePassOne_eq ts k l with h | ⟨t, _, _, _, h⟩ <;> rw [h] <;>
    exact ⟨rfl, rfl, rfl, rfl⟩

theorem abusePassOne_keeps (ts : List Threat) (k : LogRecord → Option String)
    (l : LogRecord) :
    (abusePassOne ts k l).1.srcIp = l.srcIp ∧
    (abusePassOne ts k l).1.dstIp = l.dstIp ∧
    (abusePassOne ts k l).1.logType = l.logType ∧
    (abusePassOne ts k l).1.ruleAction = l.ruleAction ∧
    (abusePassOne ts k l).1.score = l.score := by
  rcases abusePassOne_eq ts k l with h | ⟨t, _, _, _, _, _, h⟩ <;> rw [h] <;>
    exact ⟨rfl, rfl, rfl, rfl, rfl⟩

theorem isFwBlock_scorePassOne (ts : List Threat) (k : LogRecord → Option String)
    (l : LogRecord) : isFwBlock (scorePassOne ts k l).1 = isFwBlock l := by
  unfold isFwBlock
  rw [(scorePassOne_keeps ts k l).2.2.1, (scorePassOne_keeps ts k l).2.2.2]

theorem isFwBlock_abusePassOne (ts : List Threat) (k : LogRecord → Option String)
    (l : LogRecord) : isFwBlock (abusePassOne ts k l).1 = isFwBlock l := by
  unfold isFwBlock
  rw [(abusePassOne_keeps ts k l).2.2.1, (abusePassOne_keeps ts k l).2.2.2.1]

theorem scoreRow_keeps (ts : List Threat) (l : LogRecord) :
    (scoreRow ts l).srcIp = l.srcIp ∧ (scoreRow ts l).dstIp = l.dstIp ∧
    (scoreRow ts l).logType = l.logType ∧
    (scoreRow ts l).ruleAction = l.ruleAction := by
  unfold scoreRow
  constructor
  · rw [(scorePassOne_keeps ts _ _).1, (scorePassOne_keeps ts _ _).1]
  constructor
  · rw [(scorePassOne_keeps ts _ _).2.1, (scorePassOne_keeps ts _ _).2.1]
  constructor
  · rw [(scorePassOne_keeps ts _ _).2.2.1, (scorePassOne_keeps ts _ _).2.2.1]
  · rw [(scorePassOne_keeps ts _ _).2.2.2, (scorePassOne_keeps ts _ _).2.2.2]

theorem abuseRow_keeps (ts : List Threat) (l : LogRecord) :
    (abuseRow ts l).srcIp = l.srcIp ∧ (abuseRow ts l).dstIp = l.dstIp ∧
    (abuseRow ts l).logType = l.logType ∧
    (abuseRow ts l).ruleAction = l.ruleAction ∧
    (abuseRow ts l).score = l.score := by
  unfold abuseRow
  refine ⟨?_, ?_, ?_, ?_, ?_⟩
  · rw [(abusePassOne_keeps ts _ _).1, (abusePassOne_keeps ts _ _).1]
  · rw [(abusePassOne_keeps ts _ _).2.1, (abusePassOne_keeps ts _ _).2.1]
  · rw [(abusePassOne_keeps ts _ _).2.2.1, (abusePassOne_keeps ts _ _).2.2.1]
  · rw [(abusePassOne_keeps ts _ _).2.2.2.1, (abusePassOne_keeps ts _ _).2.2.2.1]
  · rw [(abusePassOne_keeps ts _ _).2.2.2.2, (abusePassOne_keeps ts _ _).2.2.2.2]

theorem patchRow_keeps (ts : List Threat) (l : LogRecord) :
    (patchRow ts l).srcIp = l.srcIp ∧ (patchRow ts l).dstIp = l.dstIp ∧
    (patchRow ts l).logType = l.logType ∧
    (patchRow ts l).ruleAction = l.ruleAction := by
  unfold patchRow
  refine ⟨?_, ?_, ?_, ?_⟩
  · rw [(abuseRow_keeps ts _).1, (scoreRow_keeps ts l).1]
  · rw [(abuseRow_keeps ts _).2.1, (scoreRow_keeps ts l).2.1]
  · rw [(abuseRow_keeps ts _).2.2.1, (scoreRow_keeps ts l).2.2.1]
  · rw [(abuseRow_keeps ts _).2.2.2.1, (scoreRow_keeps ts l).2.2.2]

theorem isFwBlock_patchRow (ts : List Threat) (l : LogRecord) :
    isFwBlock (patchRow ts l) = isFwBlock l := by
  unfold isFwBlock
  rw [(patchRow_keeps ts l).2.2.1, (patchRow_keeps ts l).2.2.2]

/-! ### Invariants established by one run of the patch steps -/

/-- If a firewall/block row still has a `NULL` score after both score
passes, neither of its IPs had a cache entry, and the row is
untouched. -/
theorem scoreRow_none (ts : List Threat) (l : LogRecord)
    (hfw : isFwBlock l = true) (h : (scoreRow ts l).score = none) :
    l.score = none ∧ matchThreat ts l.srcIp = none ∧
      matchThreat ts l.dstIp = none ∧ scoreRow ts l = l := by
  have hnull : l.score = none := by
    cases hs : l.score with
    | none => rfl
    | some v =>
      have ha := scorePassOne_skip_some (T := ts) (k := LogRecord.srcIp)
        (l := l) (by simp [hs])
      have hb := scorePassOne_skip_some (T := ts) (k := LogRecord.dstIp)
        (l := l) (by simp [hs])
      unfold scoreRow at h
      rw [ha] at h
      rw [hb] at h
      simp [hs] at h
  have hsrc : matchThreat ts l.srcIp = none := by
    cases hm : matchThreat ts l.srcIp with
    | none => rfl
    | some t =>
      have ha := scorePassOne_fires (T := ts) (k := LogRecord.srcIp)
        hnull hfw hm
      unfold scoreRow at h
      rw [ha] at h
      have hb := scorePassOne_skip_some (T := ts) (k := LogRecord.dstIp)
        (l := applyScorePatch t l) (by rw [applyScorePatch_score]; rfl)
      rw [hb] at h
      rw [applyScorePatch_score] at h
      exact Option.noConfusion h
  have ha := scorePassOne_skip_match (T := ts) (k := LogRecord.srcIp)
    (l := l) hsrc
  have hdst : matchThreat ts l.dstIp = none := by
    cases hm : matchThreat ts l.dstIp with
    | none => rfl
    | some t =>
      have hb := scorePassOne_fires (T := ts) (k := LogRecord.dstIp)
        hnull hfw hm
      unfold scoreRow at h
      rw [ha] at h
      rw [hb] at h
      rw [applyScorePatch_score] at h
      exact Option.noConfusion h
  have hb := scorePassOne_skip_match (T := ts) (k := LogRecord.dstIp)
    (l := l) hdst
  refine ⟨hnull, hsrc, hdst, ?_⟩
  unfold scoreRow
  rw [ha, hb]

/-- If a scored firewall/block row still has a `NULL` usage type after
both abuse passes, no cache entry matching either IP has a populated
usage type, and the row is untouched. -/
theorem abuseRow_none_usage (ts : List Threat) (l : LogRecord)
    (hfw : isFwBlock l = true) (hscore : l.score.isSome = true)
    (h : (abuseRow ts l).usageType = none) :
    l.usageType = none ∧
      (∀ t, matchThreat ts l.srcIp = some t → t.usageType = none) ∧
      (∀ t, matchThreat ts l.dstIp = some t → t.usageType = none) ∧
      abuseRow ts l = l := by
  have husage : l.usageType = none := by
    cases hu : l.usageType with
    | none => rfl
    | some u =>
      have ha := abusePassOne_skip_usage (T := ts) (k := LogRecord.srcIp)
        (l := l) (by simp [hu])
      have hb := abusePassOne_skip_usage (T := ts) (k := LogRecord.dstIp)
        (l := l) (by simp [hu])
      unfold abuseRow at h
      rw [ha] at h
      rw [hb] at h
      simp [hu] at h
  have hsrc : ∀ t, matchThreat ts l.srcIp = some t → t.usageType = none := by
    intro t hm
    cases ht : t.usageType with
    | none => rfl
    | some u =>
      exfalso
      have ha := abusePassOne_fires (T := ts) (k := LogRecord.srcIp)
        hscore husage hfw hm (by simp [ht])
      have hb := abusePassOne_skip_usage (T := ts) (k := LogRecord.dstIp)
        (l := applyAbusePatch t l)
        (by rw [applyAbusePatch_usageType, ht]; rfl)
      unfold abuseRow at h
      rw [ha] at h
      rw [hb] at h
      rw [applyAbusePatch_usageType, ht] at h
      exact Option.noConfusion h
  have ha : abusePassOne ts LogRecord.srcIp l = (l, 0) := by
    cases hm : matchThreat ts l.srcIp with
    | none => exact abusePassOne_skip_match hm
    | some t => exact abusePassOne_skip_stale hm (hsrc t hm)
  have hdst : ∀ t, matchThreat ts l.dstIp = some t → t.usageType = none := by
    intro t hm
    cases ht : t.usageType with
    | none => rfl
    | some u =>
      exfalso
      have hb := abusePassOne_fires (T := ts) (k := LogRecord.dstIp)
        hscore husage hfw hm (by simp [ht])
      unfold abuseRow at h
      rw [ha] at h
      rw [hb] at h
      rw [applyAbusePatch_usageType, ht] at h
      exact Option.noConfusion h
  have hb : abusePassOne ts LogRecord.dstIp l = (l, 0) := by
    cases hm : matchThreat ts l.dstIp with
    | none => exact abusePassOne_skip_match hm
    | some t => exact abusePassOne_skip_stale hm (hdst t hm)
  refine ⟨husage, hsrc, hdst, ?_⟩
  unfold abuseRow
  rw [ha, hb]

theorem isFwBlock_scoreRow (ts : List Threat) (l : LogRecord) :
    isFwBlock (scoreRow ts l) = isFwBlock l := by
  unfold isFwBlock
  rw [(scoreRow_keeps ts l).2.2.1, (scoreRow_keeps ts l).2.2.2]

/-- After one run of both patch steps, a second application of any of
the four per-row passes leaves the row unchanged and counts nothing:
the per-row fixpoint behind the idempotence property. -/
theorem patchRow_fixed (ts : List Threat) (l : LogRecord) :
    scorePassOne ts LogRecord.srcIp (patchRow ts l) = (patchRow ts l, 0) ∧
    scorePassOne ts LogRecord.dstIp (patchRow ts l) = (patchRow ts l, 0) ∧
    abusePassOne ts LogRecord.srcIp (patchRow ts l) = (patchRow ts l, 0) ∧
    abusePassOne ts LogRecord.dstIp (patchRow ts l) = (patchRow ts l, 0) := by
  cases hfw : isFwBlock l with
  | false =>
    have hfwd : isFwBlock (patchRow ts l) = false := by
      rw [isFwBlock_patchRow, hfw]
    exact ⟨scorePassOne_skip_fw hfwd, scorePassOne_skip_fw hfwd,
      abusePassOne_skip_fw hfwd, abusePassOne_skip_fw hfwd⟩
  | true =>
    cases hd : (patchRow ts l).score with
    | none =>
      have hsrnone : (scoreRow ts l).score = none := by
        rw [← (abuseRow_keeps ts (scoreRow ts l)).2.2.2.2]
        exact hd
      obtain ⟨hnull, hsrc, hdst, heq⟩ := scoreRow_none ts l hfw hsrnone
      have h1 : matchThreat ts (LogRecord.srcIp (patchRow ts l)) = none := by
        rw [show LogRecord.srcIp (patchRow ts l) = l.srcIp from
          (patchRow_keeps ts l).1]
        exact hsrc
      have h2 : matchThreat ts (LogRecord.dstIp (patchRow ts l)) = none := by
        rw [show LogRecord.dstIp (patchRow ts l) = l.dstIp from
          (patchRow_keeps ts l).2.1]
        exact hdst
      exact ⟨scorePassOne_skip_match h1, scorePassOne_skip_match h2,
        abusePassOne_skip_none hd, abusePassOne_skip_none hd⟩
    | some v =>
      have hds : (patchRow ts l).score.isSome = true := by simp [hd]
      refine ⟨scorePassOne_skip_some hds, scorePassOne_skip_some hds, ?_, ?_⟩
        <;> (cases hu : (patchRow ts l).usageType with
             | some u => exact abusePassOne_skip_usage (by simp [hu])
             | none =>
               have hbfw : isFwBlock (scoreRow ts l) = true := by
                 rw [isFwBlock_scoreRow, hfw]
               have hbscore : (scoreRow ts l).score.isSome = true := by
                 rw [(show (scoreRow ts l).score = (patchRow ts l).score from
                   ((abuseRow_keeps ts (scoreRow ts l)).2.2.2.2).symm), hd]
                 rfl
               obtain ⟨hbu, hbsrc, hbdst, hbeq⟩ :=
                 abuseRow_none_usage ts (scoreRow ts l) hbfw hbscore hu
               have hpeq : patchRow ts l = scoreRow ts l := hbeq
               first
               | (cases hm : matchThreat ts (LogRecord.srcIp (patchRow ts l)) with
                  | none => exact abusePassOne_skip_match hm
                  | some t =>
                    refine abusePassOne_skip_stale hm (hbsrc t ?_)
                    rw [(show (scoreRow ts l).srcIp = l.srcIp from
                      (scoreRow_keeps ts l).1),
                      ← (show LogRecord.srcIp (patchRow ts l) = l.srcIp from
                        (patchRow_keeps ts l).1)]
                    exact hm)
               | (cases hm : matchThreat ts (LogRecord.dstIp (patchRow ts l)) with
                  | none => exact abusePassOne_skip_match hm
                  | some t =>
                    refine abusePassOne_skip_stale hm (hbdst t ?_)
                    rw [(show (scoreRow ts l).dstIp = l.dstIp from
                      (scoreRow_keeps ts l).2.1),
                      ← (show LogRecord.dstIp (patchRow ts l) = l.dstIp from
                        (patchRow_keeps ts l).2.1)]
                    exact hm))

/-! ### Lifting per-row facts to the whole log table -/

theorem runRowPass_congr (f : LogRecord → LogRecord × Nat)
    (logs : List LogRecord) (h : ∀ l ∈ logs, f l = (l, 0)) :
    runRowPass f logs = (logs, 0) := by
  induction logs with
  | nil => rfl
  | cons a as ih =>
    have ha := h a (List.mem_cons_self a as)
    have hi := ih (fun l hl => h l (List.mem_cons_of_mem a hl))
    unfold runRowPass at hi ⊢
    simp only [List.map_cons, List.sum_cons, ha, Prod.mk.injEq] at hi ⊢
    exact ⟨by rw [hi.1], by rw [hi.2]⟩

theorem patchFromCacheFull_fst (ts : List Threat) (logs : List LogRecord) :
    (patchFromCacheFull ts logs).1 = logs.map (scoreRow ts) := by
  simp only [patchFromCacheFull, runRowPass, List.map_map]
  rfl

theorem patchAbuseFieldsFull_fst (ts : List Threat) (logs : List LogRecord) :
    (patchAbuseFieldsFull ts logs).1 = logs.map (abuseRow ts) := by
  simp only [patchAbuseFieldsFull, runRowPass, List.map_map]
  rfl

theorem patchSteps_fst (ts : List Threat) (logs : List LogRecord) :
    (patchSteps ts logs).1 = logs.map (patchRow ts) := by
  simp only [patchSteps]
  rw [patchAbuseFieldsFull_fst, patchFromCacheFull_fst, List.map_map]
  rfl

theorem patchFromCacheFull_fixed (ts : List Threat) (L : List LogRecord)
    (h1 : ∀ l ∈ L, scorePassOne ts LogRecord.srcIp l = (l, 0))
    (h2 : ∀ l ∈ L, scorePassOne ts LogRecord.dstIp l = (l, 0)) :
    patchFromCacheFull ts L = (L, 0) := by
  simp only [patchFromCacheFull]
  rw [runRowPass_congr _ _ h1]
  rw [runRowPass_congr _ _ h2]
  rfl

theorem patchAbuseFieldsFull_fixed (ts : List Threat) (L : List LogRecord)
    (h1 : ∀ l ∈ L, abusePassOne ts LogRecord.srcIp l = (l, 0))
    (h2 : ∀ l ∈ L, abusePassOne ts LogRecord.dstIp l = (l, 0)) :
    patchAbuseFieldsFull ts L = (L, 0) := by
  simp only [patchAbuseFieldsFull]
  rw [runRowPass_congr _ _ h1]
  rw [runRowPass_congr _ _ h2]
  rfl

/-! ### Sorting lemmas for the stale-entry selection -/

theorem mem_insertByScore {t x : Threat} {l : List Threat} :
    x ∈ insertByScore t l ↔ x = t ∨ x ∈ l := by
  induction l with
  | nil => simp [insertByScore]
  | cons u us ih =>
    unfold insertByScore
    split
    · simp [List.mem_cons]
    · simp only [List.mem_cons, ih]
      tauto

theorem mem_sortByScoreDesc {x : Threat} {l : List Threat} :
    x ∈ sortByScoreDesc l ↔ x ∈ l := by
  induction l with
  | nil => simp [sortByScoreDesc]
  | cons u us ih =>
    unfold sortByScoreDesc
    rw [mem_insertByScore]
    simp [List.mem_cons, ih]

theorem sorted_insertByScore {t : Threat} {l : List Threat}
    (h : l.Sorted (fun a b => b.score ≤ a.score)) :
    (insertByScore t l).Sorted (fun a b => b.score ≤ a.score) := by
  induction l with
  | nil => simp [insertByScore]
  | cons u us ih =>
    rw [List.sorted_cons] at h
    unfold insertByScore
    split
    · rename_i hle
      rw [List.sorted_cons]
      refine ⟨?_, by rw [List.sorted_cons]; exact h⟩
      intro b hb
      rcases List.mem_cons.mp hb with rfl | hbus
      · exact hle
      · exact le_trans (h.1 b hbus) hle
    · rename_i hgt
      rw [List.sorted_cons]
      refine ⟨?_, ih h.2⟩
      intro b hb
      rcases mem_insertByScore.mp hb with rfl | hbus
      · exact le_of_not_le hgt
      · exact h.1 b hbus

theorem sorted_sortByScoreDesc (l : List Threat) :
    (sortByScoreDesc l).Sorted (fun a b => b.score ≤ a.score) := by
  induction l with
  | nil => simp [sortByScoreDesc]
  | cons u us ih => exact sorted_insertByScore ih

/-! ### Budget accounting: calls + budget never increases -/

/-- One lookup issues at most one external call and pays for it: the sum
of calls made and budget left never increases, and the call counter
never decreases. -/
theorem lookup_phi (api : String → ApiOutcome) (en : EnrichState)
    (ip : String) :
    (lookup api en ip).2.calls + (lookup api en ip).2.budget ≤
        en.calls + en.budget ∧
      en.calls ≤ (lookup api en ip).2.calls := by
  unfold lookup
  split
  · exact ⟨Nat.le_refl _, Nat.le_refl _⟩
  · split
    · exact ⟨Nat.le_refl _, Nat.le_refl _⟩
    · rename_i hb0
      cases api ip with
      | success d => simp; omega
      | rateLimited => simp; omega
      | failure => simp; omega

theorem lookupBatchReenrich_phi (api : String → ApiOutcome)
    (ips : List String) : ∀ en : EnrichState,
    (lookupBatchReenrich api en ips).1.calls +
        (lookupBatchReenrich api en ips).1.budget ≤ en.calls + en.budget := by
  induction ips with
  | nil => intro en; exact Nat.le_refl _
  | cons ip rest ih =>
    intro en
    unfold lookupBatchReenrich
    exact le_trans (ih (lookup api en ip).2) (lookup_phi api en ip).1

theorem lookupBatchOrphans_phi (api : String → ApiOutcome)
    (ips : List String) : ∀ en : EnrichState,
    (lookupBatchOrphans api en ips).1.calls +
        (lookupBatchOrphans api en ips).1.budget ≤ en.calls + en.budget := by
  induction ips with
  | nil => intro en; exact Nat.le_refl _
  | cons ip rest ih =>
    intro en
    unfold lookupBatchOrphans
    dsimp only
    split
    · exact le_trans (ih (lookup api en ip).2) (lookup_phi api en ip).1
    · exact le_trans (ih (lookup api en ip).2) (lookup_phi api en ip).1

theorem reenrichStale_phi (api : String → ApiOutcome) (en : EnrichState) :
    (reenrichStale api en).1.calls + (reenrichStale api en).1.budget ≤
      en.calls + en.budget := by
  unfold reenrichStale
  split
  · exact Nat.le_refl _
  · dsimp only
    split
    · exact Nat.le_refl _
    · exact lookupBatchReenrich_phi api _ _

/-! ### Membership characterization of orphan discovery -/

theorem orphanCandidate_eq_some {ts : List Threat}
    {key : LogRecord → Option String} {l : LogRecord} {ip : String} :
    orphanCandidate ts key l = some ip ↔
      key l = some ip ∧ l.score = none ∧ isFwBlock l = true ∧
        findThreat ts ip = none := by
  unfold orphanCandidate
  cases hk : key l with
  | none => simp
  | some ip2 =>
    dsimp only
    split
    · rename_i hc
      simp only [Bool.and_eq_true, Option.isNone_iff_eq_none] at hc
      constructor
      · intro h
        injection h with h
        subst h
        exact ⟨rfl, hc.1.1, hc.1.2, hc.2⟩
      · intro h
        exact h.1
    · rename_i hc
      simp only [Bool.and_eq_true, Option.isNone_iff_eq_none] at hc
      constructor
      · intro h
        exact absurd h (by simp)
      · intro h
        obtain ⟨h1, h2, h3, h4⟩ := h
        injection h1 with h1
        subst h1
        exact absurd ⟨⟨h2, h3⟩, h4⟩ hc

theorem mem_orphanFromKey {ts : List Threat}
    {key : LogRecord → Option String} {logs : List LogRecord} {ip : String} :
    ip ∈ orphanFromKey ts key logs ↔
      ∃ l ∈ logs, key l = some ip ∧ l.score = none ∧ isFwBlock l = true ∧
        findThreat ts ip = none := by
  unfold orphanFromKey
  rw [List.mem_filterMap]
  constructor
  · rintro ⟨l, hl, hf⟩
    exact ⟨l, hl, orphanCandidate_eq_some.mp hf⟩
  · rintro ⟨l, hl, hf⟩
    exact ⟨l, hl, orphanCandidate_eq_some.mpr hf⟩

theorem mem_findOrphans {ts : List Threat} {logs : List LogRecord}
    {ip : String} :
    ip ∈ findOrphans ts logs ↔
      isPublicIp ip = true ∧ findThreat ts ip = none ∧
        ∃ l ∈ logs, (l.srcIp = some ip ∨ l.dstIp = some ip) ∧
          l.score = none ∧ isFwBlock l = true := by
  unfold findOrphans
  rw [List.mem_filter, List.mem_dedup, List.mem_append, mem_orphanFromKey,
    mem_orphanFromKey]
  constructor
  · rintro ⟨hmem, hpub⟩
    refine ⟨hpub, ?_, ?_⟩
    · rcases hmem with ⟨l, _, _, _, _, hft⟩ | ⟨l, _, _, _, _, hft⟩ <;>
        exact hft
    · rcases hmem with ⟨l, hl, hk, hs, hf, _⟩ | ⟨l, hl, hk, hs, hf, _⟩
      · exact ⟨l, hl, Or.inl hk, hs, hf⟩
      · exact ⟨l, hl, Or.inr hk, hs, hf⟩
  · rintro ⟨hpub, hft, l, hl, hk | hk, hs, hf⟩
    · exact ⟨Or.inl ⟨l, hl, hk, hs, hf, hft⟩, hpub⟩
    · exact ⟨Or.inr ⟨l, hl, hk, hs, hf, hft⟩, hpub⟩

theorem orphanCandidate_none_of_not_fw {ts : List Threat}
    {key : LogRecord → Option String} {l : LogRecord}
    (h : isFwBlock l = false) : orphanCandidate ts key l = none := by
  unfold orphanCandidate
  cases key l with
  | none => rfl
  | some ip => simp [h]

theorem orphanFromKey_filter (ts : List Threat)
    (key : LogRecord → Option String) (logs : List LogRecord) :
    orphanFromKey ts key (logs.filter isFwBlock) = orphanFromKey ts key logs := by
  induction logs with
  | nil => rfl
  | cons a as ih =>
    unfold orphanFromKey at ih ⊢
    cases ha : isFwBlock a with
    | true => simp [List.filter_cons, ha, List.filterMap_cons, ih]
    | false =>
      simp [List.filter_cons, ha, List.filterMap_cons,
        orphanCandidate_none_of_not_fw ha, ih]

/-! ### Concrete fixtures for counterexamples and witnesses -/

/-- A cached threat row with full verbose detail. -/
def exThreatA : Threat :=
  { ip := "203.0.113.7", score := 80, categories := some ["ssh-bruteforce"]
    usageType := some "Data Center", hostnames := some "host-b.example"
    totalReports := some 12, lastReported := some "2024-05-01"
    isWhitelisted := some false, isTor := some false, expired := false }

/-- A second cached threat row, used as the destination-IP entry. -/
def exThreatB : Threat :=
  { ip := "198.51.100.9", score := 10, categories := some ["scan"]
    usageType := some "ISP", hostnames := some "host-c.example"
    totalReports := some 2, lastReported := some "2024-04-01"
    isWhitelisted := some false, isTor := some false, expired := false }

/-- A pre-verbose cached row eligible for stale re-enrichment. -/
def exStaleThreat : Threat :=
  { ip := "203.0.113.50", score := 95, categories := some ["blacklist"]
    usageType := none, hostnames := none, totalReports := none
    lastReported := none, isWhitelisted := none, isTor := none
    expired := false }

/-- An unscored firewall/block log row whose two IPs both have cache
entries. -/
def exLogBoth : LogRecord :=
  { srcIp := some "203.0.113.7", dstIp := some "198.51.100.9"
    logType := "firewall", ruleAction := "block", score := none
    categories := none, usageType := none, hostnames := none
    totalReports := none, lastReported := none, isWhitelisted := none
    isTor := none }

/-- A scored log row with a populated hostnames field but a `NULL` usage
type. -/
def exLogC2 : LogRecord :=
  { exLogBoth with
    dstIp := none
    score := some 50
    hostnames := some "host-a.example" }

/-- A scored log row whose usage type is already populated. -/
def exLogPop : LogRecord := { exLogC2 with usageType := some "University" }

/-- A null-score log row that is not a firewall/block row. -/
def exVpnLog : LogRecord :=
  { srcIp := some "9.9.9.9", dstIp := none, logType := "vpn"
    ruleAction := "allow", score := none, categories := none
    usageType := none, hostnames := none, totalReports := none
    lastReported := none, isWhitelisted := none, isTor := none }

/-- The firewall/block counterpart of `exVpnLog`. -/
def exFwLog : LogRecord :=
  { exVpnLog with logType := "firewall", ruleAction := "block" }

/-- An external API that always fails, for witnesses that must make no
call at all. -/
def exApi : String → ApiOutcome := fun _ => ApiOutcome.failure

/-- A cycle state with one orphan-producing log row and an exhausted
budget. -/
def exCycleState : CycleState :=
  { logs := [exFwLog]
    enrich := { budget := 0, mirror := [], store := [], calls := 0 } }

/-! ### The claims -/

/-- C1: over one reconciliation cycle, the number of external lookup
calls issued (stale re-enrichment batch plus orphan lookups) never
exceeds the `remainingBudget` observed at cycle start: the call counter
grows by at most the starting budget. -/
theorem claim1_cycle_budget (api : String → ApiOutcome) (st : CycleState) :
    (runOnce api st).1.enrich.calls ≤ st.enrich.calls + st.enrich.budget := by
  unfold runOnce
  dsimp only
  split
  · exact le_trans (Nat.le_add_right _ _) (reenrichStale_phi api st.enrich)
  · exact le_trans
      (le_trans (Nat.le_add_right _ _) (lookupBatchOrphans_phi api _ _))
      (reenrichStale_phi api st.enrich)

/-- C6: running the patch-from-cache and patch-abuse-fields steps a
second time, immediately after a first run against the same store,
updates zero rows. -/
theorem claim6_patch_idempotent (ts : List Threat) (logs : List LogRecord) :
    (patchSteps ts (patchSteps ts logs).1).2 = 0 := by
  rw [patchSteps_fst]
  have hs1 : ∀ l ∈ logs.map (patchRow ts),
      scorePassOne ts LogRecord.srcIp l = (l, 0) := by
    intro l hl
    obtain ⟨x, _, rfl⟩ := List.mem_map.mp hl
    exact (patchRow_fixed ts x).1
  have hs2 : ∀ l ∈ logs.map (patchRow ts),
      scorePassOne ts LogRecord.dstIp l = (l, 0) := by
    intro l hl
    obtain ⟨x, _, rfl⟩ := List.mem_map.mp hl
    exact (patchRow_fixed ts x).2.1
  have ha1 : ∀ l ∈ logs.map (patchRow ts),
      abusePassOne ts LogRecord.srcIp l = (l, 0) := by
    intro l hl
    obtain ⟨x, _, rfl⟩ := List.mem_map.mp hl
    exact (patchRow_fixed ts x).2.2.1
  have ha2 : ∀ l ∈ logs.map (patchRow ts),
      abusePassOne ts LogRecord.dstIp l = (l, 0) := by
    intro l hl
    obtain ⟨x, _, rfl⟩ := List.mem_map.mp hl
    exact (patchRow_fixed ts x).2.2.2
  have hfc := patchFromCacheFull_fixed ts (logs.map (patchRow ts)) hs1 hs2
  have hab := patchAbuseFieldsFull_fixed ts (logs.map (patchRow ts)) ha1 ha2
  simp only [patchSteps]
  rw [hfc]
  dsimp only
  rw [hab]
  rfl

/-- C7: every failure path of `fetch_and_store` — HTTP 429, a timeout,
an empty payload, or any other request failure — returns 0 and leaves
the threat store unmodified. -/
theorem claim7_failure_no_change (enabled : Bool) (store : List Threat)
    (o : FetchOutcome)
    (h : o = FetchOutcome.rateLimited ∨ o = FetchOutcome.timeout ∨
      o = FetchOutcome.httpError ∨ o = FetchOutcome.ok []) :
    fetch_and_store enabled o store = (0, store) := by
  rcases h with rfl | rfl | rfl | rfl <;> cases enabled <;> rfl

/-- Witness for C7 at the concrete 429 outcome. -/
theorem claim7_witness :
    fetch_and_store true FetchOutcome.rateLimited [exThreatA] =
      (0, [exThreatA]) :=
  claim7_failure_no_change true [exThreatA] FetchOutcome.rateLimited
    (Or.inl rfl)

/-- C2 fails on the code: `_patch_abuse_fields` assigns the detail
columns other than `abuse_usage_type` without `COALESCE`, so a populated
`hostnames` value on a scored row with `NULL` usage type is overwritten
by the cache value. -/
theorem claim2_counterexample :
    exLogC2.score = some 50 ∧ exLogC2.hostnames = some "host-a.example" ∧
      exThreatA.hostnames = some "host-b.example" ∧
      (patchAbuseFieldsFull [exThreatA] [exLogC2]).1.map LogRecord.hostnames =
        [some "host-b.example"] := by
  refine ⟨rfl, rfl, rfl, ?_⟩
  decide

/-- C2 amended: the patch-abuse-fields step never modifies a LogRecord
whose `usageType` detail field is already populated; rows with a `NULL`
usage type may have their other populated detail fields overwritten. -/
theorem claim2_amended_no_overwrite (ts : List Threat)
    (logs : List LogRecord) (i : Nat) (l : LogRecord)
    (hl : logs[i]? = some l) (hpop : l.usageType.isSome = true) :
    (patchAbuseFieldsFull ts logs).1[i]? = some l := by
  rw [patchAbuseFieldsFull_fst, List.getElem?_map, hl]
  have h1 := abusePassOne_skip_usage (T := ts) (k := LogRecord.srcIp)
    (l := l) hpop
  have h2 := abusePassOne_skip_usage (T := ts) (k := LogRecord.dstIp)
    (l := l) hpop
  simp [abuseRow, h1, h2]

/-- Witness for the amended C2 at a concrete populated row. -/
theorem claim2_witness :
    (patchAbuseFieldsFull [exThreatA] [exLogPop]).1[0]? = some exLogPop :=
  claim2_amended_no_overwrite [exThreatA] [exLogPop] 0 exLogPop rfl rfl

/-- C5: when both IPs of an unscored firewall/block row have cache
entries, patch-from-cache applies the source entry: the row becomes
exactly the source-entry patch, carrying the source score and
categories. -/
theorem claim5_src_priority (ts : List Threat) (logs : List LogRecord)
    (i : Nat) (l : LogRecord) (s d : String) (tsrc tdst : Threat)
    (hl : logs[i]? = some l) (hscore : l.score = none)
    (hfw : isFwBlock l = true) (hs : l.srcIp = some s)
    (hst : findThreat ts s = some tsrc) (hd : l.dstIp = some d)
    (hdt : findThreat ts d = some tdst) :
    (patchFromCacheFull ts logs).1[i]? = some (applyScorePatch tsrc l) ∧
      (applyScorePatch tsrc l).score = some tsrc.score ∧
      (applyScorePatch tsrc l).categories = tsrc.categories := by
  refine ⟨?_, rfl, rfl⟩
  rw [patchFromCacheFull_fst, List.getElem?_map, hl]
  have hm : matchThreat ts (LogRecord.srcIp l) = some tsrc := by
    unfold matchThreat
    rw [hs]
    exact hst
  have h1 := scorePassOne_fires (T := ts) (k := LogRecord.srcIp) hscore hfw hm
  have h2 := scorePassOne_skip_some (T := ts) (k := LogRecord.dstIp)
    (l := applyScorePatch tsrc l) (by rw [applyScorePatch_score]; rfl)
  simp [scoreRow, h1, h2]

/-- Witness for C5: both IPs cached, the source entry (score 80) wins
over the destination entry (score 10). -/
theorem claim5_witness :
    (patchFromCacheFull [exThreatA, exThreatB] [exLogBoth]).1[0]? =
        some (applyScorePatch exThreatA exLogBoth) ∧
      (applyScorePatch exThreatA exLogBoth).score = some exThreatA.score ∧
      (applyScorePatch exThreatA exLogBoth).categories =
        exThreatA.categories :=
  claim5_src_priority [exThreatA, exThreatB] [exLogBoth] 0 exLogBoth
    "203.0.113.7" "198.51.100.9" exThreatA exThreatB rfl rfl (by decide)
    rfl (by decide) rfl (by decide)

/-- C9: the reconciler's patch steps never modify a log row that is not
a firewall/block row, and orphan discovery draws its candidates only
from firewall/block rows. -/
theorem claim9_frame (ts : List Threat) (logs : List LogRecord) (i : Nat)
    (l : LogRecord) (hl : logs[i]? = some l)
    (h : l.logType ≠ "firewall" ∨ l.ruleAction ≠ "block") :
    (patchFromCacheFull ts logs).1[i]? = some l ∧
      (patchAbuseFieldsFull ts logs).1[i]? = some l ∧
      findOrphans ts (logs.filter isFwBlock) = findOrphans ts logs := by
  have hfw : isFwBlock l = false := by
    unfold isFwBlock
    rcases h with h | h <;> simp [beq_iff_eq, h]
  refine ⟨?_, ?_, ?_⟩
  · rw [patchFromCacheFull_fst, List.getElem?_map, hl]
    have h1 := scorePassOne_skip_fw (T := ts) (k := LogRecord.srcIp) hfw
    have h2 := scorePassOne_skip_fw (T := ts) (k := LogRecord.dstIp) hfw
    simp [scoreRow, h1, h2]
  · rw [patchAbuseFieldsFull_fst, List.getElem?_map, hl]
    have h1 := abusePassOne_skip_fw (T := ts) (k := LogRecord.srcIp) hfw
    have h2 := abusePassOne_skip_fw (T := ts) (k := LogRecord.dstIp) hfw
    simp [abuseRow, h1, h2]
  · unfold findOrphans
    rw [orphanFromKey_filter, orphanFromKey_filter]

/-- Witness for C9 at a concrete vpn/allow row. -/
theorem claim9_witness :
    (patchFromCacheFull [exThreatA] [exVpnLog]).1[0]? = some exVpnLog ∧
      (patchAbuseFieldsFull [exThreatA] [exVpnLog]).1[0]? = some exVpnLog ∧
      findOrphans [exThreatA] ([exVpnLog].filter isFwBlock) =
        findOrphans [exThreatA] [exVpnLog] :=
  claim9_frame [exThreatA] [exVpnLog] 0 exVpnLog rfl
    (Or.inl (by decide))

/-- `blacklistEntry` in guarded form: exactly the items with a truthy
`ipAddress` produce an entry. -/
theorem blacklistEntry_eq (item : BlacklistItem) :
    blacklistEntry item =
      if hasIpAddress item then
        some (item.ipAddress.getD "", item.abuseConfidenceScore.getD 100,
          ["blacklist"])
      else none := by
  unfold blacklistEntry hasIpAddress
  cases ha : item.ipAddress with
  | none => simp [ha]
  | some ip =>
    by_cases hip : ip = ""
    · subst hip
      simp [ha]
    · simp [ha, hip]

/-- C3 fails as stated: `9.9.9.9` is public, appears as `srcIp` of a
null-score log row, and has no store entry, yet it is not classified as
an orphan, because the row is not a firewall/block row — a restriction
the claim omits. -/
theorem claim3_counterexample :
    isPublicIp "9.9.9.9" = true ∧ exVpnLog.srcIp = some "9.9.9.9" ∧
      exVpnLog.score = none ∧ findThreat [] "9.9.9.9" = none ∧
      findOrphans [] [exVpnLog] = [] := by
  refine ⟨by decide, rfl, rfl, rfl, by decide⟩

/-- C3 amended: restricted to null-score **firewall/block** rows, an IP
is classified orphan iff it is publicly routable, appears as source or
destination of such a row, and has no ThreatStore record; private,
loopback and link-local addresses are excluded by the public-IP test. -/
theorem claim3_amended_orphan_iff (ts : List Threat)
    (logs : List LogRecord) (ip : String) :
    ip ∈ findOrphans ts logs ↔
      isPublicIp ip = true ∧ findThreat ts ip = none ∧
        ∃ l ∈ logs, (l.srcIp = some ip ∨ l.dstIp = some ip) ∧
          l.score = none ∧ l.logType = "firewall" ∧
          l.ruleAction = "block" := by
  rw [mem_findOrphans]
  unfold isFwBlock
  simp only [Bool.and_eq_true, beq_iff_eq]

/-- C4: the stale-entry selection with remaining budget `b` returns at
most `min(STALE_REENRICH_BATCH, b)` entries, each with `NULL` usage
type, categories denoting the empty set or exactly the blacklist tag,
and positive score, ordered by score descending. -/
theorem claim4_findStale_spec (ts : List Threat) (b : Nat) (t : Threat)
    (ht : t ∈ findStaleRecords ts (min STALE_REENRICH_BATCH b)) :
    (findStaleRecords ts (min STALE_REENRICH_BATCH b)).length ≤
        min STALE_REENRICH_BATCH b ∧
      t.usageType = none ∧
      (t.categories.getD [] = [] ∨ t.categories.getD [] = ["blacklist"]) ∧
      0 < t.score ∧
      (findStaleRecords ts (min STALE_REENRICH_BATCH b)).Sorted
        (fun a b => b.score ≤ a.score) := by
  have hmem : t ∈ ts.filter isStale :=
    mem_sortByScoreDesc.mp (List.mem_of_mem_take ht)
  have hst : isStale t = true := (List.mem_filter.mp hmem).2
  unfold isStale blacklistOnlyCats at hst
  simp only [Bool.and_eq_true, Bool.or_eq_true, Option.isNone_iff_eq_none,
    beq_iff_eq, decide_eq_true_eq] at hst
  refine ⟨?_, hst.1.1, ?_, hst.2, ?_⟩
  · unfold findStaleRecords
    rw [List.length_take]
    exact min_le_left _ _
  · rcases hst.1.2 with (hc | hc) | hc
    · left
      rw [hc]
      rfl
    · left
      rw [hc]
      rfl
    · right
      rw [hc]
      rfl
  · exact List.Pairwise.sublist (List.take_sublist _ _)
      (sorted_sortByScoreDesc (ts.filter isStale))

/-- Witness for C4: one stale record with budget 3. -/
theorem claim4_witness :
    (findStaleRecords [exStaleThreat] (min STALE_REENRICH_BATCH 3)).length ≤
        min STALE_REENRICH_BATCH 3 ∧
      exStaleThreat.usageType = none ∧
      (exStaleThreat.categories.getD [] = [] ∨
        exStaleThreat.categories.getD [] = ["blacklist"]) ∧
      0 < exStaleThreat.score ∧
      (findStaleRecords [exStaleThreat] (min STALE_REENRICH_BATCH 3)).Sorted
        (fun a b => b.score ≤ a.score) :=
  claim4_findStale_spec [exStaleThreat] 3 exStaleThreat (by decide)

/-- C10 fails on one edge: an item whose `ipAddress` key holds the empty
string has an `ipAddress` yet produces no entry (Python truthiness). -/
theorem claim10_counterexample :
    buildEntries [{ ipAddress := some "", abuseConfidenceScore := none }] =
        [] ∧
      (([{ ipAddress := some "", abuseConfidenceScore := none }] :
          List BlacklistItem).filter
        (fun item => item.ipAddress.isSome)).length = 1 := by
  exact ⟨rfl, rfl⟩

/-- C10 amended: the produced entries are exactly one per item with a
non-empty `ipAddress`, in order, each carrying the item score (100 when
the key is absent) and the singleton blacklist category list. -/
theorem claim10_amended_entries (data : List BlacklistItem) :
    buildEntries data =
      (data.filter hasIpAddress).map
        (fun item => (item.ipAddress.getD "",
          item.abuseConfidenceScore.getD 100, ["blacklist"])) := by
  induction data with
  | nil => rfl
  | cons a as ih =>
    unfold buildEntries at ih ⊢
    rw [List.filterMap_cons, List.filter_cons, blacklistEntry_eq]
    cases hip : hasIpAddress a with
    | true => simp [ih]
    | false => simp [ih]

/-- C8: when the orphan set is non-empty and the remaining budget read
at step 5 is zero, the cycle emits the pending-orphans message and ends
at once: the log table stays as steps 1-2 left it (steps 6-7 are
skipped) and the enricher state — in particular its call counter — is
exactly the state after step 3, so no orphan lookup call is made. -/
theorem claim8_budget_gate (api : String → ApiOutcome) (st : CycleState)
    (h1 : findOrphans ((reenrichStale api st.enrich).1).store
      (stepTwoLogs st) ≠ [])
    (h2 : ((reenrichStale api st.enrich).1).budget = 0) :
    (runOnce api st).2 =
        CycleReport.pendingOrphans
          (patchFromCacheFull st.enrich.store st.logs).2
          (patchAbuseFieldsFull st.enrich.store
            (patchFromCacheFull st.enrich.store st.logs).1).2
          (reenrichStale api st.enrich).2
          (findOrphans ((reenrichStale api st.enrich).1).store
            (stepTwoLogs st)).length ∧
      (runOnce api st).1.logs = stepTwoLogs st ∧
      (runOnce api st).1.enrich = (reenrichStale api st.enrich).1 ∧
      (runOnce api st).1.enrich.calls =
        ((reenrichStale api st.enrich).1).calls := by
  have hie : (findOrphans ((reenrichStale api st.enrich).1).store
      (stepTwoLogs st)).isEmpty = false := by
    rcases hfo : findOrphans ((reenrichStale api st.enrich).1).store
      (stepTwoLogs st) with _ | ⟨a, as⟩
    · exact absurd hfo h1
    · rfl
  unfold runOnce stepTwoLogs at hie ⊢
  dsimp only
  rw [hie, h2]
  simp only [Bool.not_false, Bool.true_and, beq_self_eq_true, if_true]
  exact ⟨trivial, trivial, trivial, trivial⟩

/-- Witness for C8: one orphan-producing firewall/block row, empty
store, zero budget. -/
theorem claim8_witness :
    (runOnce exApi exCycleState).2 =
        CycleReport.pendingOrphans
          (patchFromCacheFull exCycleState.enrich.store exCycleState.logs).2
          (patchAbuseFieldsFull exCycleState.enrich.store
            (patchFromCacheFull exCycleState.enrich.store
              exCycleState.logs).1).2
          (reenrichStale exApi exCycleState.enrich).2
          (findOrphans ((reenrichStale exApi exCycleState.enrich).1).store
            (stepTwoLogs exCycleState)).length ∧
      (runOnce exApi exCycleState).1.logs = stepTwoLogs exCycleState ∧
      (runOnce exApi exCycleState).1.enrich =
        (reenrichStale exApi exCycleState.enrich).1 ∧
      (runOnce exApi exCycleState).1.enrich.calls =
        ((reenrichStale exApi exCycleState.enrich).1).calls :=
  claim8_budget_gate exApi exCycleState (by decide) (by decide)

end UnifiBackfill
